import Mathlib

/-!
Shallow embedding of the rlock library (rlock.go): a mutual-exclusion lock
whose state lives in a relational store.  The store table is modelled as a
list of rows; the two atomic primitives (insert-with-uniqueness, conditional
update) are modelled semantically as a match predicate plus a row update and
an affected-row count.  Fallible store operations take their outcome as an
explicit oracle argument; `RLock.Lock` additionally records the trace of
store operations it performs, so that claims about "no retry" and "no
further fetch/takeover" are statable.
-/

namespace Rlock

/-- Table name constant from the source (`TableName = "rlock"`). -/
def TableName : String := "rlock"

/-- `PollInterval = 1 * time.Second`, in nanoseconds (Go `time.Duration`). -/
def PollInterval : Int := 1000000000

/-- `MaxAge = 1 * time.Hour`, in nanoseconds (Go `time.Duration`). -/
def MaxAge : Int := 3600000000000

/-- One persisted row of the `rlock` table (`LockEntry` in the source). -/
structure LockEntry where
  id : Int
  name : String
  owner : String
  inUse : Bool
  lastError : String
  lastUsed : Int
  createdAt : Int
  deriving DecidableEq, Repr

/-- Opaque marker for a non-nil `*sqlx.DB` handle. -/
structure Store where
  deriving DecidableEq, Repr

/-- The lock manager (`RLock` in the source): store handle plus owner token. -/
structure RLock where
  db : Store
  owner : String
  deriving DecidableEq, Repr

/-- A lock handle (`Lock` in the source): back-reference to its manager,
the lock name and the acquire timeout used at acquisition. -/
structure Lock where
  rl : RLock
  name : String
  timeout : Int
  deriving DecidableEq, Repr

/-- Modelled from the spec: the owner token comes from the external Identity
Provider (satori go.uuid, out of scope for the repository), described as "an
opaque, virtually-collision-free string generator" that "must always produce
a usable token".  Only its interface is modelled: one opaque, non-empty
token per instance. -/
def generateUUID (seed : Nat) : String := "owner-" ++ toString seed

/-- `New(db)`: nil store handle is rejected, otherwise a manager holding the
store and a freshly generated owner token is returned. -/
def New (db : Option Store) (seed : Nat) : Except String RLock :=
  match db with
  | none => Except.error "db cannot be nil"
  | some d => Except.ok { db := d, owner := generateUUID seed }

/-- Match predicate of the takeover UPDATE.  Non-forced:
`WHERE name=? AND in_use=0 AND owner=?`; forced: `WHERE name=? AND owner=?`. -/
def takeoverPred (force : Bool) (origName origOwner : String) (row : LockEntry) : Bool :=
  if force then row.name == origName && row.owner == origOwner
  else row.name == origName && !row.inUse && row.owner == origOwner

/-- The SET clause of the takeover UPDATE: `SET owner=?, in_use=1` with the
own token of the caller. -/
def takeoverSet (newOwner : String) (row : LockEntry) : LockEntry :=
  { row with owner := newOwner, inUse := true }

/-- Takeover failure modes, mirroring the four error returns of `takeover`. -/
inductive TakeoverErr
  | execFailed (msg : String)
  | affectedFailed (msg : String)
  | tooManyRows
  | stillInUse
  deriving DecidableEq, Repr

/-- `takeover(origName, origOwner, force)`: the conditional UPDATE applied to
the table, then the affected-count checks of the source (`> 1` is the
internal-consistency error, `== 0` the guard-failed error).  `execErr` and
`affErr` are the outcomes of `db.Exec` and `res.RowsAffected`. -/
def RLock.takeover (r : RLock) (origName origOwner : String) (force : Bool)
    (execErr affErr : Option String) (table : List LockEntry) :
    List LockEntry × Option TakeoverErr :=
  match execErr with
  | some m => (table, some (TakeoverErr.execFailed m))
  | none =>
    let table2 := table.map fun row =>
      if takeoverPred force origName origOwner row then takeoverSet r.owner row else row
    let affected := (table.filter (takeoverPred force origName origOwner)).length
    match affErr with
    | some m => (table2, some (TakeoverErr.affectedFailed m))
    | none =>
      if affected > 1 then (table2, some TakeoverErr.tooManyRows)
      else if affected == 0 then (table2, some TakeoverErr.stillInUse)
      else (table2, none)

/-- Outcome of the `db.Get` behind `getExistingByName`. -/
inductive FetchResult
  | ok (e : LockEntry)
  | noRows
  | failed (msg : String)
  deriving DecidableEq, Repr

/-- Errors of `getExistingByName`: the `KeyNotFoundErr` sentinel (from
`sql.ErrNoRows`) or any other store error, passed through. -/
inductive GetErr
  | keyNotFound
  | other (msg : String)
  deriving DecidableEq, Repr

/-- `getExistingByName(name)`: maps `sql.ErrNoRows` to the `KeyNotFoundErr`
sentinel and passes other store errors through. -/
def RLock.getExistingByName (r : RLock) (fr : FetchResult) : Except GetErr LockEntry :=
  match fr with
  | FetchResult.ok e => Except.ok e
  | FetchResult.noRows => Except.error GetErr.keyNotFound
  | FetchResult.failed m => Except.error (GetErr.other m)

/-- `isValid(existingLock, newLockName, newLockTimeout)`: nil record, a
record not in use, or a stale record (`time.Since(last_used) > MaxAge`) is
invalid (an error is returned); otherwise valid (`nil`).  `now` stands for
`time.Now()`.  The name and timeout arguments are unused, as in the source. -/
def isValid (existingLock : Option LockEntry) (newLockName : String)
    (newLockTimeout : Int) (now : Int) : Option String :=
  match existingLock with
  | none => some "existing lock cannot be nil"
  | some l =>
    if !l.inUse then some "existing lock is not in use"
    else if now - l.lastUsed > MaxAge then some "existing lock is stale"
    else none

/-- Outcome of the initial INSERT: success, MySQL duplicate-key error 1062,
or any other exec error. -/
inductive InsertResult
  | ok
  | dupe
  | failed (msg : String)
  deriving DecidableEq, Repr

/-- One iteration of the poll loop as the environment resolves it: either
the acquire timer has fired (the `select` takes the timer branch), or a
guarded takeover is attempted with the given outcome (`none` = success). -/
inductive PollStep
  | timerFired
  | attempt (r : Option TakeoverErr)
  deriving DecidableEq, Repr

/-- The store responses one `Lock` call observes. -/
structure LockOracle where
  insert : InsertResult
  fetch : FetchResult
  now : Int
  forced : Option TakeoverErr
  poll : List PollStep
  deriving DecidableEq, Repr

/-- Errors returned by `Lock`, mirroring the return sites of the source. -/
inductive LockErr
  | insertFailed (name msg : String)
  | lockNoLongerExists
  | fetchFailed (msg : String)
  | takeoverFailed (name : String) (e : TakeoverErr)
  | acquireTimeout
  deriving DecidableEq, Repr

/-- A store operation performed by `Lock`, with its arguments. -/
inductive StoreOp
  | insertOp (name owner : String)
  | fetchOp (name : String)
  | takeoverOp (name origOwner : String) (force : Bool)
  deriving DecidableEq, Repr

/-- The poll loop of `Lock`: each iteration checks the timer (return
`AcquireTimeoutErr`), otherwise sleeps one `PollInterval` and attempts a
guarded takeover on the owner observed at fetch time; any takeover error is
`continue`d, success returns the handle.  `none` means the schedule ran out
before the loop decided (the real loop would keep iterating). -/
def pollLoop (r : RLock) (name : String) (timeout : Int) (obsOwner : String) :
    List PollStep → Option (Except LockErr Lock) × List StoreOp
  | [] => (none, [])
  | PollStep.timerFired :: _ => (some (Except.error LockErr.acquireTimeout), [])
  | PollStep.attempt (some _) :: rest =>
    let p := pollLoop r name timeout obsOwner rest
    (p.1, StoreOp.takeoverOp name obsOwner false :: p.2)
  | PollStep.attempt none :: _ =>
    (some (Except.ok ⟨r, name, timeout⟩), [StoreOp.takeoverOp name obsOwner false])

/-- `Lock(name, acquireTimeout)`: optimistic insert; on duplicate, fetch the
existing record; invalid record means forced takeover, valid record means
the poll loop.  Returns the result together with the trace of store
operations performed. -/
def RLock.Lock (r : RLock) (name : String) (acquireTimeout : Int) (o : LockOracle) :
    Option (Except LockErr Lock) × List StoreOp :=
  match o.insert with
  | InsertResult.failed m =>
    (some (Except.error (LockErr.insertFailed name m)), [StoreOp.insertOp name r.owner])
  | InsertResult.ok =>
    (some (Except.ok ⟨r, name, acquireTimeout⟩), [StoreOp.insertOp name r.owner])
  | InsertResult.dupe =>
    match r.getExistingByName o.fetch with
    | Except.error GetErr.keyNotFound =>
      (some (Except.error LockErr.lockNoLongerExists),
       [StoreOp.insertOp name r.owner, StoreOp.fetchOp name])
    | Except.error (GetErr.other m) =>
      (some (Except.error (LockErr.fetchFailed m)),
       [StoreOp.insertOp name r.owner, StoreOp.fetchOp name])
    | Except.ok entry =>
      match isValid (some entry) name acquireTimeout o.now with
      | some _ =>
        match o.forced with
        | some e =>
          (some (Except.error (LockErr.takeoverFailed name e)),
           [StoreOp.insertOp name r.owner, StoreOp.fetchOp name,
            StoreOp.takeoverOp name entry.owner true])
        | none =>
          (some (Except.ok ⟨r, name, acquireTimeout⟩),
           [StoreOp.insertOp name r.owner, StoreOp.fetchOp name,
            StoreOp.takeoverOp name entry.owner true])
      | none =>
        let p := pollLoop r name acquireTimeout entry.owner o.poll
        (p.1, StoreOp.insertOp name r.owner :: StoreOp.fetchOp name :: p.2)

/-- Match predicate of the unlock UPDATE: `WHERE name=? AND owner=?`. -/
def unlockPred (name owner : String) (row : LockEntry) : Bool :=
  row.name == name && row.owner == owner

/-- The SET clause of the unlock UPDATE: `SET in_use=0, last_error=?`. -/
def unlockSet (msg : String) (row : LockEntry) : LockEntry :=
  { row with inUse := false, lastError := msg }

/-- Serialization of the error handed to `Unlock`: `""` for nil, otherwise
`lastError.Error()`. -/
def errString : Option String → String
  | none => ""
  | some m => m

/-- Unlock failure modes, mirroring the three error returns of `Unlock`. -/
inductive UnlockErr
  | execFailed (name msg : String)
  | affectedFailed (name msg : String)
  | wrongCount (n : Nat)
  deriving DecidableEq, Repr

/-- `Unlock(lastError)`: conditional UPDATE guarded by the name of the handle and
the owner token of its manager, then the `affected != 1` check of the source. -/
def Lock.Unlock (l : Lock) (lastError : Option String) (execErr affErr : Option String)
    (table : List LockEntry) : List LockEntry × Option UnlockErr :=
  let lastErrorStr := errString lastError
  match execErr with
  | some m => (table, some (UnlockErr.execFailed l.name m))
  | none =>
    let table2 := table.map fun row =>
      if unlockPred l.name l.rl.owner row then unlockSet lastErrorStr row else row
    let affected := (table.filter (unlockPred l.name l.rl.owner)).length
    match affErr with
    | some m => (table2, some (UnlockErr.affectedFailed l.name m))
    | none =>
      if affected ≠ 1 then (table2, some (UnlockErr.wrongCount affected))
      else (table2, none)

/-- Result of `LastError()`: nil, an error carrying the stored text, or a
wrapped store failure (which also covers `sql.ErrNoRows` from `db.Get`). -/
inductive LastErrorResult
  | noErr
  | prior (msg : String)
  | fetchFailed (msg : String)
  deriving DecidableEq, Repr

/-- `LastError()`: `SELECT last_error WHERE name=? AND owner=?`; any store
error (including no matching row) is wrapped and surfaced; an empty stored
value maps to nil, a non-empty one to `errors.New(lastError)`. -/
def Lock.LastError (l : Lock) (getErr : Option String) (table : List LockEntry) :
    LastErrorResult :=
  match getErr with
  | some m => LastErrorResult.fetchFailed m
  | none =>
    match table.find? fun row => row.name == l.name && row.owner == l.rl.owner with
    | none => LastErrorResult.fetchFailed "sql: no rows in result set"
    | some row =>
      if row.lastError == "" then LastErrorResult.noErr
      else LastErrorResult.prior row.lastError

/-! ### Helper lemmas -/

deriving instance DecidableEq for Except

theorem pollLoop_dichotomy (r : RLock) (name : String) (timeout : Int) (obsOwner : String)
    (steps : List PollStep) (h : PollStep.timerFired ∈ steps) :
    (pollLoop r name timeout obsOwner steps).1 = some (Except.ok ⟨r, name, timeout⟩) ∨
    (pollLoop r name timeout obsOwner steps).1 = some (Except.error LockErr.acquireTimeout) := by
  induction steps with
  | nil => exact absurd h (List.not_mem_nil _)
  | cons s rest ih =>
    cases s with
    | timerFired => right; rfl
    | attempt t =>
      cases t with
      | none => left; rfl
      | some e =>
        have h2 : PollStep.timerFired ∈ rest := by
          rcases List.mem_cons.mp h with hh | hh
          · exact absurd hh (by simp)
          · exact hh
        simpa [pollLoop] using ih h2

theorem pollLoop_ops (r : RLock) (name : String) (timeout : Int) (obsOwner : String)
    (steps : List PollStep) :
    ∀ op ∈ (pollLoop r name timeout obsOwner steps).2,
      op = StoreOp.takeoverOp name obsOwner false := by
  induction steps with
  | nil => intro op hop; exact absurd hop (List.not_mem_nil _)
  | cons s rest ih =>
    cases s with
    | timerFired => intro op hop; exact absurd hop (List.not_mem_nil _)
    | attempt t =>
      cases t with
      | none =>
        intro op hop
        rcases List.mem_cons.mp hop with hh | hh
        · exact hh
        · exact absurd hh (List.not_mem_nil _)
      | some e =>
        intro op hop
        rcases List.mem_cons.mp hop with hh | hh
        · exact hh
        · exact ih op hh

theorem pollLoop_ok_handle (r : RLock) (name : String) (timeout : Int) (obsOwner : String)
    (steps : List PollStep) (h : Lock)
    (hres : (pollLoop r name timeout obsOwner steps).1 = some (Except.ok h)) :
    h = ⟨r, name, timeout⟩ := by
  induction steps with
  | nil => exact absurd hres (by simp [pollLoop])
  | cons s rest ih =>
    cases s with
    | timerFired => exact absurd hres (by simp [pollLoop])
    | attempt t =>
      cases t with
      | none =>
        have := hres
        simp only [pollLoop, Option.some.injEq, Except.ok.injEq] at this
        exact this.symm
      | some e =>
        apply ih
        simpa [pollLoop] using hres

/-! ### Claim theorems -/

/-- C7: fast path.  Whenever the initial insert succeeds, `Lock` returns a
handle carrying the requested name and acquire timeout immediately, and the
only store operation performed is the insert — no fetch, no takeover, no
poll loop. -/
theorem C7_fast_path (r : RLock) (name : String) (acquireTimeout : Int)
    (fetch : FetchResult) (now : Int) (forced : Option TakeoverErr) (poll : List PollStep) :
    RLock.Lock r name acquireTimeout ⟨InsertResult.ok, fetch, now, forced, poll⟩ =
      (some (Except.ok ⟨r, name, acquireTimeout⟩), [StoreOp.insertOp name r.owner]) := rfl

/-- C8: contention path with a vanished record.  When the fetch after a
duplicate-key insert reports no rows, `Lock` fails with the
"lock no longer exists" error without retrying the insert (the trace holds
exactly one insert and one fetch); any other fetch failure is returned
immediately; `getExistingByName` maps the no-rows case to the
`KeyNotFoundErr` sentinel. -/
theorem C8_vanished_record (r : RLock) (name : String) (acquireTimeout : Int)
    (now : Int) (forced : Option TakeoverErr) (poll : List PollStep) (m : String) :
    RLock.Lock r name acquireTimeout ⟨InsertResult.dupe, FetchResult.noRows, now, forced, poll⟩ =
      (some (Except.error LockErr.lockNoLongerExists),
       [StoreOp.insertOp name r.owner, StoreOp.fetchOp name]) ∧
    RLock.Lock r name acquireTimeout ⟨InsertResult.dupe, FetchResult.failed m, now, forced, poll⟩ =
      (some (Except.error (LockErr.fetchFailed m)),
       [StoreOp.insertOp name r.owner, StoreOp.fetchOp name]) ∧
    RLock.getExistingByName r FetchResult.noRows = Except.error GetErr.keyNotFound :=
  ⟨rfl, rfl, rfl⟩

/-- C3: poll loop termination and outcomes.  If the existing record is
valid, `Lock` enters the poll loop; provided the acquire timer eventually
fires in the schedule, the call terminates and returns either a handle for
the requested name and timeout (a guarded takeover succeeded) or the
`AcquireTimeoutErr` sentinel — never any other error; every store operation
performed is the insert, the fetch, or a guarded (non-forced) takeover on
the owner observed at fetch time. -/
theorem C3_poll_loop (r : RLock) (name : String) (acquireTimeout : Int)
    (entry : LockEntry) (now : Int) (forced : Option TakeoverErr) (poll : List PollStep)
    (hvalid : isValid (some entry) name acquireTimeout now = none)
    (hfire : PollStep.timerFired ∈ poll) :
    ((RLock.Lock r name acquireTimeout ⟨InsertResult.dupe, FetchResult.ok entry, now, forced, poll⟩).1 =
        some (Except.ok ⟨r, name, acquireTimeout⟩) ∨
     (RLock.Lock r name acquireTimeout ⟨InsertResult.dupe, FetchResult.ok entry, now, forced, poll⟩).1 =
        some (Except.error LockErr.acquireTimeout)) ∧
    ∀ op ∈ (RLock.Lock r name acquireTimeout ⟨InsertResult.dupe, FetchResult.ok entry, now, forced, poll⟩).2,
      op = StoreOp.insertOp name r.owner ∨ op = StoreOp.fetchOp name ∨
      op = StoreOp.takeoverOp name entry.owner false := by
  constructor
  · have hd := pollLoop_dichotomy r name acquireTimeout entry.owner poll hfire
    simpa [RLock.Lock, RLock.getExistingByName, hvalid] using hd
  · intro op hop
    have hops := pollLoop_ops r name acquireTimeout entry.owner poll
    simp only [RLock.Lock, RLock.getExistingByName, hvalid] at hop
    rcases List.mem_cons.mp hop with hh | hh
    · exact Or.inl hh
    · rcases List.mem_cons.mp hh with hh2 | hh2
      · exact Or.inr (Or.inl hh2)
      · exact Or.inr (Or.inr (hops op hh2))

/-- C3 witness: a concrete valid record and a schedule whose second step
fires the timer; the call returns the timeout sentinel. -/
theorem C3_poll_loop_witness :
    isValid (some ⟨1, "job", "a", true, "", 0, 0⟩) "job" 5 0 = none ∧
    ((RLock.Lock ⟨⟨⟩, "b"⟩ "job" 5
        ⟨InsertResult.dupe, FetchResult.ok ⟨1, "job", "a", true, "", 0, 0⟩, 0, none,
         [PollStep.attempt (some TakeoverErr.stillInUse), PollStep.timerFired]⟩).1 =
          some (Except.ok ⟨⟨⟨⟩, "b"⟩, "job", 5⟩) ∨
     (RLock.Lock ⟨⟨⟩, "b"⟩ "job" 5
        ⟨InsertResult.dupe, FetchResult.ok ⟨1, "job", "a", true, "", 0, 0⟩, 0, none,
         [PollStep.attempt (some TakeoverErr.stillInUse), PollStep.timerFired]⟩).1 =
          some (Except.error LockErr.acquireTimeout)) :=
  ⟨by decide,
   (C3_poll_loop ⟨⟨⟩, "b"⟩ "job" 5 ⟨1, "job", "a", true, "", 0, 0⟩ 0 none
      [PollStep.attempt (some TakeoverErr.stillInUse), PollStep.timerFired]
      (by decide) (by decide)).1⟩

theorem takeover_none_eq (r : RLock) (origName origOwner : String) (force : Bool)
    (table : List LockEntry) :
    r.takeover origName origOwner force none none table =
      (table.map (fun row =>
         if takeoverPred force origName origOwner row then takeoverSet r.owner row else row),
       if 1 < (table.filter (takeoverPred force origName origOwner)).length then
         some TakeoverErr.tooManyRows
       else if (table.filter (takeoverPred force origName origOwner)).length = 0 then
         some TakeoverErr.stillInUse
       else none) := by
  simp only [RLock.takeover, beq_iff_eq, gt_iff_lt]
  by_cases h1 : 1 < (table.filter (takeoverPred force origName origOwner)).length
  · simp only [if_pos h1]
  · by_cases h0 : (table.filter (takeoverPred force origName origOwner)).length = 0
    · simp only [if_neg h1, if_pos h0]
    · simp only [if_neg h1, if_neg h0]

/-- C1: takeover.  The non-forced conditional update matches exactly the
rows with the requested name, the observed owner and `in_use = false`; the
forced update drops the `in_use` condition; both set the own token of the caller
as owner and `in_use = true`; with the store operations succeeding, the call
succeeds iff exactly one row was affected, zero affected rows yield the
guard-failed error and more than one the (distinct) internal-consistency
error. -/
theorem C1_takeover (r : RLock) (origName origOwner : String) (table : List LockEntry) :
    (∀ row, takeoverPred false origName origOwner row = true ↔
      (row.name = origName ∧ row.owner = origOwner ∧ row.inUse = false)) ∧
    (∀ row, takeoverPred true origName origOwner row = true ↔
      (row.name = origName ∧ row.owner = origOwner)) ∧
    (∀ row, (takeoverSet r.owner row).owner = r.owner ∧ (takeoverSet r.owner row).inUse = true) ∧
    (∀ force : Bool,
      (r.takeover origName origOwner force none none table).1 =
        table.map (fun row =>
          if takeoverPred force origName origOwner row then takeoverSet r.owner row else row) ∧
      ((r.takeover origName origOwner force none none table).2 = none ↔
        (table.filter (takeoverPred force origName origOwner)).length = 1) ∧
      ((table.filter (takeoverPred force origName origOwner)).length = 0 →
        (r.takeover origName origOwner force none none table).2 = some TakeoverErr.stillInUse) ∧
      (1 < (table.filter (takeoverPred force origName origOwner)).length →
        (r.takeover origName origOwner force none none table).2 = some TakeoverErr.tooManyRows) ∧
      TakeoverErr.stillInUse ≠ TakeoverErr.tooManyRows) := by
  refine ⟨?_, ?_, ?_, ?_⟩
  · intro row
    constructor
    · intro h
      simp [takeoverPred] at h
      tauto
    · intro h
      simp [takeoverPred]
      tauto
  · intro row
    constructor
    · intro h
      simp [takeoverPred] at h
      tauto
    · intro h
      simp [takeoverPred]
      tauto
  · intro row
    exact ⟨rfl, rfl⟩
  · intro force
    refine ⟨?_, ?_, ?_, ?_, by simp⟩
    · rw [takeover_none_eq]
    · rw [takeover_none_eq]
      by_cases h1 : 1 < (table.filter (takeoverPred force origName origOwner)).length
      · simp only [if_pos h1]
        constructor
        · intro h; exact absurd h (by simp)
        · intro h; omega
      · by_cases h0 : (table.filter (takeoverPred force origName origOwner)).length = 0
        · simp only [if_neg h1, if_pos h0]
          constructor
          · intro h; exact absurd h (by simp)
          · intro h; omega
        · simp only [if_neg h1, if_neg h0]
          constructor
          · intro _; omega
          · intro _; trivial
    · intro h0
      rw [takeover_none_eq]
      simp only [if_neg (by omega : ¬ 1 < (table.filter (takeoverPred force origName origOwner)).length), if_pos h0]
    · intro h1
      rw [takeover_none_eq]
      simp only [if_pos h1]

/-- C1 witness: on a single-row table whose row is still in use, the
non-forced takeover affects zero rows and fails with the guard-failed
error. -/
theorem C1_takeover_witness :
    ((RLock.mk ⟨⟩ "b").takeover "job" "a" false none none
        [⟨1, "job", "a", true, "", 0, 0⟩]).2 = some TakeoverErr.stillInUse :=
  (((C1_takeover ⟨⟨⟩, "b"⟩ "job" "a" [⟨1, "job", "a", true, "", 0, 0⟩]).2.2.2 false).2.2.1)
    (by decide)

/-- C2: invalid records and forced takeover.  A fetched record is judged
invalid exactly when it is nil, or not in use, or in use but stale
(`now - last_used > MaxAge`); the forced predicate guards on name and owner
only; for an invalid record `Lock` performs one forced takeover on the
observed owner and returns a handle on its success or the wrapped takeover
error on its failure, never touching the poll loop; for a valid record it
enters the poll loop instead. -/
theorem C2_invalid_forced_takeover (r : RLock) (name : String) (acquireTimeout : Int)
    (entry : LockEntry) (now : Int) (forced : Option TakeoverErr) (poll : List PollStep) :
    (∀ (e : Option LockEntry) (nm : String) (tm t : Int),
      isValid e nm tm t ≠ none ↔
        (e = none ∨ ∃ l, e = some l ∧
          (l.inUse = false ∨ (l.inUse = true ∧ t - l.lastUsed > MaxAge)))) ∧
    (∀ row, takeoverPred true name entry.owner row = true ↔
      (row.name = name ∧ row.owner = entry.owner)) ∧
    (isValid (some entry) name acquireTimeout now ≠ none →
      RLock.Lock r name acquireTimeout ⟨InsertResult.dupe, FetchResult.ok entry, now, forced, poll⟩ =
        (match forced with
         | none => some (Except.ok ⟨r, name, acquireTimeout⟩)
         | some e => some (Except.error (LockErr.takeoverFailed name e)),
         [StoreOp.insertOp name r.owner, StoreOp.fetchOp name,
          StoreOp.takeoverOp name entry.owner true])) ∧
    (isValid (some entry) name acquireTimeout now = none →
      RLock.Lock r name acquireTimeout ⟨InsertResult.dupe, FetchResult.ok entry, now, forced, poll⟩ =
        ((pollLoop r name acquireTimeout entry.owner poll).1,
         StoreOp.insertOp name r.owner :: StoreOp.fetchOp name ::
           (pollLoop r name acquireTimeout entry.owner poll).2)) := by
  refine ⟨?_, ?_, ?_, ?_⟩
  · intro e nm tm t
    cases e with
    | none => simp [isValid]
    | some l =>
      simp only [isValid]
      cases hu : l.inUse with
      | false => simp [hu]
      | true =>
        by_cases hs : t - l.lastUsed > MaxAge
        · simp [hs, hu]
        · simp [hs, hu]
  · intro row
    simp [takeoverPred]
  · intro hinv
    rcases h : isValid (some entry) name acquireTimeout now with _ | s
    · exact absurd h hinv
    · cases forced with
      | none => simp [RLock.Lock, RLock.getExistingByName, h]
      | some e => simp [RLock.Lock, RLock.getExistingByName, h]
  · intro hval
    simp [RLock.Lock, RLock.getExistingByName, hval]

/-- C2 witness: a released (not in use) record is invalid, and with the
forced takeover succeeding the call returns a handle after exactly the
insert, fetch and forced takeover. -/
theorem C2_invalid_forced_takeover_witness :
    isValid (some ⟨1, "job", "a", false, "", 0, 0⟩) "job" 5 0 ≠ none ∧
    RLock.Lock ⟨⟨⟩, "b"⟩ "job" 5
        ⟨InsertResult.dupe, FetchResult.ok ⟨1, "job", "a", false, "", 0, 0⟩, 0, none,
         [PollStep.timerFired]⟩ =
      (some (Except.ok ⟨⟨⟨⟩, "b"⟩, "job", 5⟩),
       [StoreOp.insertOp "job" "b", StoreOp.fetchOp "job",
        StoreOp.takeoverOp "job" "a" true]) :=
  ⟨by decide,
   (C2_invalid_forced_takeover ⟨⟨⟩, "b"⟩ "job" 5 ⟨1, "job", "a", false, "", 0, 0⟩ 0 none
      [PollStep.timerFired]).2.2.1 (by decide)⟩

/-- C6 counterexample: inside the poll loop the source retries every
takeover failure (`if err := r.takeover(...); err != nil { continue }`).
Concretely, with a valid existing record and a schedule in which the first
guarded takeover fails with a store-level exec error and the second
succeeds, `Lock` returns a handle — the store failure was retried, not
returned immediately as the claim requires. -/
theorem C6_counterexample :
    (RLock.Lock ⟨⟨⟩, "b"⟩ "job" 5
        ⟨InsertResult.dupe, FetchResult.ok ⟨1, "job", "a", true, "", 0, 0⟩, 0, none,
         [PollStep.attempt (some (TakeoverErr.execFailed "disk failure")),
          PollStep.attempt none]⟩).1 =
      some (Except.ok ⟨⟨⟨⟩, "b"⟩, "job", 5⟩) ∧
    (RLock.Lock ⟨⟨⟩, "b"⟩ "job" 5
        ⟨InsertResult.dupe, FetchResult.ok ⟨1, "job", "a", true, "", 0, 0⟩, 0, none,
         [PollStep.attempt (some (TakeoverErr.execFailed "disk failure")),
          PollStep.attempt none]⟩).1 ≠
      some (Except.error (LockErr.takeoverFailed "job" (TakeoverErr.execFailed "disk failure"))) := by
  constructor
  · decide
  · decide

/-- C6 (amended): outside the poll loop, every storage error other than the
duplicate-key violation on the insert is propagated immediately and never
retried — a failed insert, a failed fetch and a failed forced takeover each
end the call at once; inside the poll loop, every guarded-takeover failure,
whether the guard-failed condition or any other store failure, is silently
retried (the loop continues on the remaining schedule). -/
theorem C6_error_propagation (r : RLock) (name : String) (acquireTimeout : Int) :
    (∀ (m : String) (fetch : FetchResult) (now : Int) (forced : Option TakeoverErr)
       (poll : List PollStep),
      RLock.Lock r name acquireTimeout ⟨InsertResult.failed m, fetch, now, forced, poll⟩ =
        (some (Except.error (LockErr.insertFailed name m)), [StoreOp.insertOp name r.owner])) ∧
    (∀ (m : String) (now : Int) (forced : Option TakeoverErr) (poll : List PollStep),
      RLock.Lock r name acquireTimeout ⟨InsertResult.dupe, FetchResult.failed m, now, forced, poll⟩ =
        (some (Except.error (LockErr.fetchFailed m)),
         [StoreOp.insertOp name r.owner, StoreOp.fetchOp name])) ∧
    (∀ (entry : LockEntry) (now : Int) (e : TakeoverErr) (poll : List PollStep),
      isValid (some entry) name acquireTimeout now ≠ none →
      RLock.Lock r name acquireTimeout ⟨InsertResult.dupe, FetchResult.ok entry, now, some e, poll⟩ =
        (some (Except.error (LockErr.takeoverFailed name e)),
         [StoreOp.insertOp name r.owner, StoreOp.fetchOp name,
          StoreOp.takeoverOp name entry.owner true])) ∧
    (∀ (obsOwner : String) (e : TakeoverErr) (rest : List PollStep),
      pollLoop r name acquireTimeout obsOwner (PollStep.attempt (some e) :: rest) =
        ((pollLoop r name acquireTimeout obsOwner rest).1,
         StoreOp.takeoverOp name obsOwner false ::
           (pollLoop r name acquireTimeout obsOwner rest).2)) := by
  refine ⟨fun m fetch now forced poll => rfl, fun m now forced poll => rfl, ?_, ?_⟩
  · intro entry now e poll hinv
    rcases h : isValid (some entry) name acquireTimeout now with _ | s
    · exact absurd h hinv
    · simp [RLock.Lock, RLock.getExistingByName, h]
  · intro obsOwner e rest
    rfl

/-- C6 witness: a forced takeover that fails with a store error on an
invalid (released) record is propagated immediately, with no poll-loop
operation performed. -/
theorem C6_error_propagation_witness :
    isValid (some ⟨1, "job", "a", false, "", 0, 0⟩) "job" 5 0 ≠ none ∧
    RLock.Lock ⟨⟨⟩, "b"⟩ "job" 5
        ⟨InsertResult.dupe, FetchResult.ok ⟨1, "job", "a", false, "", 0, 0⟩, 0,
         some (TakeoverErr.execFailed "disk failure"), [PollStep.attempt none]⟩ =
      (some (Except.error (LockErr.takeoverFailed "job" (TakeoverErr.execFailed "disk failure"))),
       [StoreOp.insertOp "job" "b", StoreOp.fetchOp "job",
        StoreOp.takeoverOp "job" "a" true]) :=
  ⟨by decide,
   (C6_error_propagation ⟨⟨⟩, "b"⟩ "job" 5).2.2.1 ⟨1, "job", "a", false, "", 0, 0⟩ 0
     (TakeoverErr.execFailed "disk failure") [PollStep.attempt none] (by decide)⟩

/-- C4: Unlock.  The conditional update is guarded by the name of the handle and
the owner token of its manager together; it sets `in_use = false` and writes the
serialized error text (empty string for nil); with the store operations
succeeding, Unlock returns nil iff exactly one row was affected, any other
affected count yields an error, and a failing store operation yields an
error as well. -/
theorem C4_unlock (l : Lock) (E : Option String) (table : List LockEntry) :
    (∀ row, unlockPred l.name l.rl.owner row = true ↔
      (row.name = l.name ∧ row.owner = l.rl.owner)) ∧
    (∀ row, (unlockSet (errString E) row).inUse = false ∧
      (unlockSet (errString E) row).lastError = errString E) ∧
    errString none = "" ∧ (∀ m, errString (some m) = m) ∧
    (l.Unlock E none none table).1 =
      table.map (fun row =>
        if unlockPred l.name l.rl.owner row then unlockSet (errString E) row else row) ∧
    ((l.Unlock E none none table).2 = none ↔
      (table.filter (unlockPred l.name l.rl.owner)).length = 1) ∧
    ((table.filter (unlockPred l.name l.rl.owner)).length ≠ 1 →
      (l.Unlock E none none table).2 =
        some (UnlockErr.wrongCount (table.filter (unlockPred l.name l.rl.owner)).length)) ∧
    (∀ m, (l.Unlock E (some m) none table).2 = some (UnlockErr.execFailed l.name m)) := by
  refine ⟨?_, fun row => ⟨rfl, rfl⟩, rfl, fun m => rfl, ?_, ?_, ?_, fun m => rfl⟩
  · intro row
    simp [unlockPred]
  · simp only [Lock.Unlock]
    by_cases h : (table.filter (unlockPred l.name l.rl.owner)).length ≠ 1
    · simp only [if_pos h]
    · simp only [if_neg h]
  · simp only [Lock.Unlock]
    by_cases h : (table.filter (unlockPred l.name l.rl.owner)).length ≠ 1
    · simp only [if_pos h]
      constructor
      · intro hc; exact absurd hc (by simp)
      · intro hc; exact absurd hc h
    · simp only [if_neg h]
      constructor
      · intro _; omega
      · intro _; trivial
  · intro h
    simp only [Lock.Unlock, if_pos h]

/-- C4 witness: on a single-row table matching the name and owner of the handle,
Unlock with a nil error succeeds and clears `in_use` and `last_error`. -/
theorem C4_unlock_witness :
    ((Lock.mk ⟨⟨⟩, "a"⟩ "job" 5).Unlock none none none
        [⟨1, "job", "a", true, "boom", 0, 0⟩]).2 = none :=
  (C4_unlock ⟨⟨⟨⟩, "a"⟩, "job", 5⟩ none [⟨1, "job", "a", true, "boom", 0, 0⟩]).2.2.2.2.2.1.mpr
    (by decide)

theorem generateUUID_ne_empty (seed : Nat) : generateUUID seed ≠ "" := by
  intro h
  have h2 : (generateUUID seed).length = 0 := by rw [h]; rfl
  rw [generateUUID, String.length_append] at h2
  have h3 : ("owner-" : String).length = 6 := rfl
  rw [h3] at h2
  omega

/-- C9 counterexample: the nil-store error message of the constructor in the
source is "db cannot be nil", not "store cannot be nil" as the claim
states. -/
theorem C9_counterexample :
    New none 0 = Except.error "db cannot be nil" ∧
    ("db cannot be nil" : String) ≠ "store cannot be nil" := by
  exact ⟨rfl, by decide⟩

/-- C9 (amended): calling the constructor with a nil store returns no
Manager and the error "db cannot be nil" (the name the code gives the store
handle); with a non-nil store it returns, with no error, a Manager holding
that store and a non-empty owner token. -/
theorem C9_constructor (seed : Nat) (d : Store) :
    New none seed = Except.error "db cannot be nil" ∧
    New (some d) seed = Except.ok ⟨d, generateUUID seed⟩ ∧
    generateUUID seed ≠ "" :=
  ⟨rfl, rfl, generateUUID_ne_empty seed⟩

/-- C9 witness: the constructor at a concrete store and seed. -/
theorem C9_constructor_witness :
    New (some ⟨⟩) 0 = Except.ok ⟨⟨⟩, generateUUID 0⟩ ∧ generateUUID 0 ≠ "" :=
  ⟨(C9_constructor 0 ⟨⟩).2.1, (C9_constructor 0 ⟨⟩).2.2⟩

/-- C10: handle integrity and owner immutability.  The owner token of the manager
token is fixed at construction: none of the modelled operations produces a
modified manager, and on every path of `Lock` (fast path, forced takeover,
poll loop) a successful call returns a handle whose back-reference is
exactly the calling manager — hence the owner token inside the handle is the
construction-time token — and whose name and timeout are exactly the
requested ones. -/
theorem C10_handle_fields (r : RLock) (name : String) (acquireTimeout : Int)
    (o : LockOracle) (h : Lock)
    (hres : (RLock.Lock r name acquireTimeout o).1 = some (Except.ok h)) :
    h.rl = r ∧ h.name = name ∧ h.timeout = acquireTimeout ∧ h.rl.owner = r.owner := by
  have hmain : h = Lock.mk r name acquireTimeout := by
    rcases o with ⟨insert, fetch, now, forced, poll⟩
    cases insert with
    | failed m => exact absurd hres (by simp [RLock.Lock])
    | ok =>
      simp only [RLock.Lock, Option.some.injEq, Except.ok.injEq] at hres
      exact hres.symm
    | dupe =>
      cases fetch with
      | noRows => exact absurd hres (by simp [RLock.Lock, RLock.getExistingByName])
      | failed m => exact absurd hres (by simp [RLock.Lock, RLock.getExistingByName])
      | ok entry =>
        rcases hv : isValid (some entry) name acquireTimeout now with _ | s
        · apply pollLoop_ok_handle r name acquireTimeout entry.owner poll
          simpa [RLock.Lock, RLock.getExistingByName, hv] using hres
        · cases forced with
          | some e => exact absurd hres (by simp [RLock.Lock, RLock.getExistingByName, hv])
          | none =>
            simp only [RLock.Lock, RLock.getExistingByName, hv, Option.some.injEq,
              Except.ok.injEq] at hres
            exact hres.symm
  subst hmain
  exact ⟨rfl, rfl, rfl, rfl⟩

/-- C10 witness: the fast-path handle references the calling manager and
carries the requested name and timeout. -/
theorem C10_handle_fields_witness :
    (Lock.mk ⟨⟨⟩, "a"⟩ "job" 5).rl = RLock.mk ⟨⟩ "a" ∧
    (Lock.mk ⟨⟨⟩, "a"⟩ "job" 5).name = "job" ∧
    (Lock.mk ⟨⟨⟩, "a"⟩ "job" 5).timeout = 5 ∧
    (Lock.mk ⟨⟨⟩, "a"⟩ "job" 5).rl.owner = (RLock.mk ⟨⟩ "a").owner :=
  C10_handle_fields ⟨⟨⟩, "a"⟩ "job" 5
    ⟨InsertResult.ok, FetchResult.noRows, 0, none, []⟩ ⟨⟨⟨⟩, "a"⟩, "job", 5⟩ (by decide)

theorem map_if_false {α : Type} {p : α → Bool} {f : α → α} {t : List α}
    (h : ∀ x ∈ t, p x = false) :
    t.map (fun x => if p x then f x else x) = t := by
  induction t with
  | nil => rfl
  | cons a t ih =>
    have ha : p a = false := h a (List.mem_cons_self a t)
    simp [ha, ih fun x hx => h x (List.mem_cons_of_mem a hx)]

theorem filter_false {α : Type} {p : α → Bool} {t : List α}
    (h : ∀ x ∈ t, p x = false) : t.filter p = [] := by
  induction t with
  | nil => rfl
  | cons a t ih =>
    have ha : p a = false := h a (List.mem_cons_self a t)
    simp [List.filter_cons, ha, ih fun x hx => h x (List.mem_cons_of_mem a hx)]

theorem find?_append_false {α : Type} {p : α → Bool} {t l : List α}
    (h : ∀ x ∈ t, p x = false) : (t ++ l).find? p = l.find? p := by
  induction t with
  | nil => rfl
  | cons a t ih =>
    have ha : p a = false := h a (List.mem_cons_self a t)
    rw [List.cons_append, List.find?_cons_of_neg _ (by simp [ha])]
    exact ih fun x hx => h x (List.mem_cons_of_mem a hx)

theorem unlock_none_eq (l : Lock) (E : Option String) (table : List LockEntry) :
    l.Unlock E none none table =
      (table.map (fun row =>
         if unlockPred l.name l.rl.owner row then unlockSet (errString E) row else row),
       if (table.filter (unlockPred l.name l.rl.owner)).length ≠ 1 then
         some (UnlockErr.wrongCount (table.filter (unlockPred l.name l.rl.owner)).length)
       else none) := by
  simp only [Lock.Unlock]
  by_cases h : (table.filter (unlockPred l.name l.rl.owner)).length ≠ 1
  · simp only [if_pos h]
  · simp only [if_neg h]

/-- C5 counterexample: a Go error may carry an empty message
(`errors.New("")` is non-nil).  A holder that unlocks with such an error
stores `""`, and the `LastError` of the next acquirer maps the empty stored
value to nil — not to an error whose message equals the (empty) holder
message, as the claim requires for every unlock error. -/
theorem C5_counterexample :
    ((Lock.mk ⟨⟨⟩, "b"⟩ "job" 5).LastError none
        ((RLock.mk ⟨⟩ "b").takeover "job" "a" false none none
          ((Lock.mk ⟨⟨⟩, "a"⟩ "job" 5).Unlock (some "") none none
            [⟨1, "job", "a", true, "old", 0, 0⟩]).1).1) = LastErrorResult.noErr ∧
    LastErrorResult.noErr ≠ LastErrorResult.prior "" := by
  exact ⟨by decide, by decide⟩

/-- C5 (amended): round-trip of the handoff channel.  On a table whose only
row for the lock name is held by the first holder, `unlock(E)` succeeds, a
subsequent guarded takeover by the next acquirer succeeds, and the next
next `lastError()` then returns: an error carrying the message of E when
that message is non-empty, and nil when E is nil or the message of E is the
empty string; a storage failure during the `lastError` read is surfaced as
a distinct error, never mapped to nil. -/
theorem C5_handoff (s : Store) (aOwner bOwner lockName : String) (tA tB : Int)
    (E : Option String) (t1 t2 : List LockEntry) (r0 : LockEntry)
    (hn1 : ∀ row ∈ t1, row.name ≠ lockName)
    (hn2 : ∀ row ∈ t2, row.name ≠ lockName)
    (hr0n : r0.name = lockName) (hr0o : r0.owner = aOwner) :
    ((Lock.mk ⟨s, aOwner⟩ lockName tA).Unlock E none none (t1 ++ r0 :: t2)).2 = none ∧
    ((RLock.mk s bOwner).takeover lockName aOwner false none none
        ((Lock.mk ⟨s, aOwner⟩ lockName tA).Unlock E none none (t1 ++ r0 :: t2)).1).2 = none ∧
    ((Lock.mk ⟨s, bOwner⟩ lockName tB).LastError none
        ((RLock.mk s bOwner).takeover lockName aOwner false none none
          ((Lock.mk ⟨s, aOwner⟩ lockName tA).Unlock E none none (t1 ++ r0 :: t2)).1).1 =
      match E with
      | none => LastErrorResult.noErr
      | some m => if m = "" then LastErrorResult.noErr else LastErrorResult.prior m) ∧
    (∀ (m : String) (tbl : List LockEntry),
      (Lock.mk ⟨s, bOwner⟩ lockName tB).LastError (some m) tbl = LastErrorResult.fetchFailed m) ∧
    (∀ m : String, LastErrorResult.fetchFailed m ≠ LastErrorResult.noErr) := by
  have hu1 : ∀ row ∈ t1, unlockPred lockName aOwner row = false := by
    intro row hr
    simp [unlockPred, beq_eq_false_iff_ne.mpr (hn1 row hr)]
  have hu2 : ∀ row ∈ t2, unlockPred lockName aOwner row = false := by
    intro row hr
    simp [unlockPred, beq_eq_false_iff_ne.mpr (hn2 row hr)]
  have hur0 : unlockPred lockName aOwner r0 = true := by
    simp [unlockPred, hr0n, hr0o]
  have hstep1 : (Lock.mk ⟨s, aOwner⟩ lockName tA).Unlock E none none (t1 ++ r0 :: t2) =
      (t1 ++ unlockSet (errString E) r0 :: t2, none) := by
    rw [unlock_none_eq]
    dsimp only
    rw [List.map_append, List.map_cons, map_if_false hu1, map_if_false hu2, if_pos hur0,
      List.filter_append, List.filter_cons, filter_false hu1, filter_false hu2, if_pos hur0]
    simp
  have ht1 : ∀ row ∈ t1, takeoverPred false lockName aOwner row = false := by
    intro row hr
    simp [takeoverPred, beq_eq_false_iff_ne.mpr (hn1 row hr)]
  have ht2 : ∀ row ∈ t2, takeoverPred false lockName aOwner row = false := by
    intro row hr
    simp [takeoverPred, beq_eq_false_iff_ne.mpr (hn2 row hr)]
  have htr0 : takeoverPred false lockName aOwner (unlockSet (errString E) r0) = true := by
    simp [takeoverPred, unlockSet, hr0n, hr0o]
  have hstep2 : (RLock.mk s bOwner).takeover lockName aOwner false none none
      (t1 ++ unlockSet (errString E) r0 :: t2) =
      (t1 ++ takeoverSet bOwner (unlockSet (errString E) r0) :: t2, none) := by
    rw [takeover_none_eq]
    dsimp only
    rw [List.map_append, List.map_cons, map_if_false ht1, map_if_false ht2, if_pos htr0,
      List.filter_append, List.filter_cons, filter_false ht1, filter_false ht2, if_pos htr0]
    simp
  have hf1 : ∀ row ∈ t1,
      (fun row => row.name == lockName && row.owner == bOwner) row = false := by
    intro row hr
    simp [beq_eq_false_iff_ne.mpr (hn1 row hr)]
  have hfr0 : ((takeoverSet bOwner (unlockSet (errString E) r0)).name == lockName &&
      (takeoverSet bOwner (unlockSet (errString E) r0)).owner == bOwner) = true := by
    simp [takeoverSet, unlockSet, hr0n]
  have hstep3 : (Lock.mk ⟨s, bOwner⟩ lockName tB).LastError none
      (t1 ++ takeoverSet bOwner (unlockSet (errString E) r0) :: t2) =
      (if errString E == "" then LastErrorResult.noErr
       else LastErrorResult.prior (errString E)) := by
    simp only [Lock.LastError]
    rw [find?_append_false hf1]
    have hfind : List.find? (fun row => row.name == lockName && row.owner == bOwner)
        (takeoverSet bOwner (unlockSet (errString E) r0) :: t2) =
        some (takeoverSet bOwner (unlockSet (errString E) r0)) :=
      List.find?_cons_of_pos _ hfr0
    rw [hfind]
    rfl
  refine ⟨by rw [hstep1], by rw [hstep1, hstep2], ?_, fun m tbl => rfl, fun m => by simp⟩
  rw [hstep1, hstep2]
  dsimp only
  rw [hstep3]
  cases E with
  | none => simp [errString]
  | some m =>
    by_cases hm : m = ""
    · simp [errString, hm]
    · simp [errString, hm, beq_eq_false_iff_ne.mpr hm]

/-- C5 witness: on a one-row table for the lock name, unlocking with an
error message "boom" hands "boom" to the next acquirer, and a storage
failure during the read is surfaced distinctly. -/
theorem C5_handoff_witness :
    ((Lock.mk ⟨⟨⟩, "b"⟩ "job" 7).LastError none
        ((RLock.mk ⟨⟩ "b").takeover "job" "a" false none none
          ((Lock.mk ⟨⟨⟩, "a"⟩ "job" 5).Unlock (some "boom") none none
            [⟨1, "job", "a", true, "", 0, 0⟩]).1).1) = LastErrorResult.prior "boom" ∧
    LastErrorResult.fetchFailed "io" ≠ LastErrorResult.noErr := by
  have h := C5_handoff ⟨⟩ "a" "b" "job" 5 7 (some "boom") [] []
    ⟨1, "job", "a", true, "", 0, 0⟩ (by intro row hr; cases hr) (by intro row hr; cases hr)
    (by decide) (by decide)
  refine ⟨?_, h.2.2.2.2 "io"⟩
  have h3 := h.2.2.1
  simpa using h3

end Rlock
